import Mathlib

/-!
Verification development for `Bio/PDB/PDBList.py`.

The Python module is embedded shallowly:

* The filesystem is a pair of maps: file paths to contents, and a set of
  directories.  Paths are lists of components (`os.path.join a b` becomes
  `a ++ [b]`).
* Network access is an oracle parameter: `fetchLines` models `urlopen`
  followed by `readlines()` (returning `none` when the request raises
  `URLError`), and `fetchFile` models `urlretrieve` similarly.
* `gzip` decompression and `tarfile` member extraction are abstract
  parameters `gunzip : Content → Content` and
  `untar : Content → List (String × Content)` (member name and content).
* A Python function that can raise an uncaught exception returns an
  `Option` (`none` = the exception propagates) or a `PyResult` that
  distinguishes the `UnboundLocalError` raised by `return final_file`
  when `final_file` was never assigned.
* `_urlretrieve` failing with `URLError` is modelled as writing no file.
  `os.mkdir` is modelled as total (its caller has asserted that the
  parent directory exists).

Each definition mirrors the correspondingly named Python attribute or
method of class `PDBList`; pure helpers (`parseStatusList`, `recentDirName`,
`parseAllEntries`, `parseAllObsolete`) are the parsing loops of
`get_status_list`, `get_recent_changes`, `get_all_entries` and
`get_all_obsolete` separated from their network call.
-/

/-- File contents (the bytes of a file). -/
abbrev Content := String

/-- A filesystem path, as the list of its components; `os.path.join p c`
is `p ++ [c]`. -/
abbrev FsPath := List String

/-- The local filesystem: contents of files, and the set of directories. -/
structure FS where
  files : FsPath → Option Content
  dirs : FsPath → Bool

/-- The filesystem with no files and no directories. -/
def FS.empty : FS := ⟨fun _ => none, fun _ => false⟩

/-- `os.path.isfile`. -/
def FS.isFile (fs : FS) (p : FsPath) : Bool := (fs.files p).isSome

/-- `os.path.isdir`. -/
def FS.isDir (fs : FS) (p : FsPath) : Bool := fs.dirs p

/-- `os.path.exists` / `os.access(p, os.F_OK)`. -/
def FS.pathExists (fs : FS) (p : FsPath) : Bool := fs.isFile p || fs.isDir p

/-- Writing a file (`open(p, 'wb')` followed by writing `c`). -/
def FS.writeFile (fs : FS) (p : FsPath) (c : Content) : FS :=
  ⟨fun q => if q = p then some c else fs.files q, fs.dirs⟩

/-- `os.remove`. -/
def FS.removeFile (fs : FS) (p : FsPath) : FS :=
  ⟨fun q => if q = p then none else fs.files q, fs.dirs⟩

/-- All nonempty initial segments of a path, longest last. -/
def pathParents : FsPath → List FsPath
  | [] => []
  | x :: xs => [x] :: (pathParents xs).map (fun p => x :: p)

/-- `os.makedirs`: creates the directory and every missing parent. -/
def FS.makedirs (fs : FS) (p : FsPath) : FS :=
  ⟨fs.files, fun q => decide (q ∈ pathParents p) || fs.dirs q⟩

/-- `os.mkdir`: creates a single directory level. -/
def FS.mkdir (fs : FS) (p : FsPath) : FS :=
  ⟨fs.files, fun q => decide (q = p) || fs.dirs q⟩

/-- `shutil.move` on a regular file: the destination receives the source's
content and the source is removed. -/
def FS.move (fs : FS) (src dst : FsPath) : FS :=
  match fs.files src with
  | some c => (fs.removeFile src).writeFile dst c
  | none => fs

/-- Python `str.lower()`. -/
def pyLower (s : String) : String := ⟨s.data.map Char.toLower⟩

/-- Python slicing `s[1:3]`. -/
def slice13 (s : String) : String := ⟨(s.data.drop 1).take 2⟩

/-- Python slicing `s[:4]`. -/
def pyTake4 (s : String) : String := ⟨s.data.take 4⟩

/-- Python `str.isdigit()`: nonempty and all digits. -/
def pyIsdigit (s : String) : Bool := !s.isEmpty && s.data.all Char.isDigit

/-- Python `str.strip()` with no argument: remove leading and trailing
whitespace. -/
def pyStrip (s : String) : String :=
  ⟨(((s.data.dropWhile Char.isWhitespace).reverse.dropWhile Char.isWhitespace).reverse)⟩

/-- Helper for `pySplit`: walks the characters, accumulating the current
token reversed. -/
def splitWsAux : List Char → List Char → List String
  | [], acc => if acc.isEmpty then [] else [⟨acc.reverse⟩]
  | c :: cs, acc =>
    if c.isWhitespace then
      if acc.isEmpty then splitWsAux cs [] else ⟨acc.reverse⟩ :: splitWsAux cs []
    else splitWsAux cs (c :: acc)

/-- Python `str.split()` with no argument: split on whitespace runs,
dropping empty tokens. -/
def pySplit (s : String) : List String := splitWsAux s.data []

/-- Python `s.startswith(p)`. -/
def pyStartsWith (s p : String) : Bool := decide (s.data.take p.data.length = p.data)

/-- Python `s.split()[-1]`; `none` models the `IndexError` on a line with
no tokens. -/
def lastToken (s : String) : Option String := (pySplit s).getLast?

/-- The last character of a string, if any. -/
def lastChar (s : String) : Option Char := s.data.getLast?

/-- The result of calling one of the fetch methods: either the string the
method returns, or the `UnboundLocalError` raised by `return final_file`
when the identifier-length check failed and `final_file` was never bound. -/
inductive PyResult where
  | ok (p : FsPath)
  | nameError
deriving DecidableEq

/-- Outcome of a fetch method: its returned value (or exception), the
filesystem afterwards, and the URLs for which a network retrieval was
attempted. -/
structure FetchOutcome where
  ret : PyResult
  fs : FS
  retrieved : List String

/-- The configuration held by a `PDBList` instance: `pdb_server`,
`local_pdb`, `obsolete_pdb`, and the command-line flags `overwrite` and
`flat_tree`. -/
structure PDBList where
  pdb_server : String
  local_pdb : FsPath
  obsolete_pdb : FsPath
  overwrite : Bool
  flat_tree : Bool

/-- `PDBList.__init__(server, pdb, obsolete_pdb)`: records the server and
local tree; when no custom obsolete tree is given it defaults to
`local_pdb/obsolete` and is created (`os.makedirs`) if absent.  The flags
`overwrite` and `flat_tree` start cleared. -/
def PDBList.init (server : String) (pdb : FsPath) (obsolete_pdb : Option FsPath)
    (fs : FS) : PDBList × FS :=
  match obsolete_pdb with
  | some o => (⟨server, pdb, o, false, false⟩, fs)
  | none =>
    let o := pdb ++ ["obsolete"]
    let fs := if !fs.pathExists o then fs.makedirs o else fs
    (⟨server, pdb, o, false, false⟩, fs)

/-- The loop body of `get_status_list`: each line is stripped, asserted to
have length 4, and collected; `none` models the `AssertionError` abort on
a malformed line. -/
def parseStatusList : List String → Option (List String)
  | [] => some []
  | l :: ls =>
    let pdb := pyStrip l
    if pdb.length = 4 then (parseStatusList ls).map (fun r => pdb :: r) else none

/-- `PDBList.get_status_list(url)`: reads the listing at `url` and parses
it; `none` models both `URLError` and the `AssertionError`. -/
def PDBList.get_status_list (_self : PDBList) (fetchLines : String → Option (List String))
    (url : String) : Option (List String) := do
  parseStatusList (← fetchLines url)

/-- The selection in `get_recent_changes`:
`filter(str.isdigit, (x.split()[-1] for x in handle.readlines()))[-1]`.
`none` models an `IndexError` (an empty line, or no all-digit name). -/
def recentDirName (lines : List String) : Option String := do
  let names ← lines.mapM lastToken
  (names.filter pyIsdigit).getLast?

/-- `PDBList.get_recent_changes()`: picks a weekly status directory from
the server listing, then reads the `added.pdb`, `modified.pdb` and
`obsolete.pdb` lists from it. -/
def PDBList.get_recent_changes (self : PDBList)
    (fetchLines : String → Option (List String)) :
    Option (List String × List String × List String) := do
  let url := self.pdb_server ++ "/pub/pdb/data/status/"
  let recent ← recentDirName (← fetchLines url)
  let path := self.pdb_server ++ "/pub/pdb/data/status/" ++ recent ++ "/"
  let added ← self.get_status_list fetchLines (path ++ "added.pdb")
  let modified ← self.get_status_list fetchLines (path ++ "modified.pdb")
  let obsolete ← self.get_status_list fetchLines (path ++ "obsolete.pdb")
  pure (added, modified, obsolete)

/-- The comprehension in `get_all_entries`:
`[line[:4] for line in handle.readlines()[2:] if len(line) > 4]`
(lines carry their trailing newline, as from `readlines()`). -/
def parseAllEntries (lines : List String) : List String :=
  ((lines.drop 2).filter (fun l => decide (4 < l.length))).map pyTake4

/-- `PDBList.get_all_entries()`: reads the `entries.idx` index and parses it. -/
def PDBList.get_all_entries (self : PDBList)
    (fetchLines : String → Option (List String)) : Option (List String) := do
  let lines ← fetchLines (self.pdb_server ++ "/pub/pdb/derived_data/index/entries.idx")
  pure (parseAllEntries lines)

/-- The loop body of `get_all_obsolete`: lines not starting with
`"OBSLTE "` are skipped; otherwise `line.split()[2]` is taken and asserted
to have length 4.  `none` models the `IndexError`/`AssertionError` abort. -/
def parseAllObsolete : List String → Option (List String)
  | [] => some []
  | l :: ls =>
    if pyStartsWith l "OBSLTE " then
      match (pySplit l).get? 2 with
      | none => none
      | some pdb =>
        if pdb.length = 4 then (parseAllObsolete ls).map (fun r => pdb :: r) else none
    else parseAllObsolete ls

/-- `PDBList.get_all_obsolete()`: reads `obsolete.dat` and parses it. -/
def PDBList.get_all_obsolete (self : PDBList)
    (fetchLines : String → Option (List String)) : Option (List String) := do
  parseAllObsolete (← fetchLines (self.pdb_server ++ "/pub/pdb/data/status/obsolete.dat"))

/-- `archive_fn = "pdb%s.ent.gz" % code`. -/
def legacyArchiveFn (code : String) : String := "pdb" ++ code ++ ".ent.gz"

/-- The decompressed legacy file name `"pdb%s.ent" % code`. -/
def legacyFinalName (code : String) : String := "pdb" ++ code ++ ".ent"

/-- `archive_fn = "%s.cif.gz" % code`. -/
def mmcifArchiveFn (code : String) : String := code ++ ".cif.gz"

/-- The decompressed mmCIF file name `"%s.cif" % code`. -/
def mmcifFinalName (code : String) : String := code ++ ".cif"

/-- `archive_fn = "%s-pdb-bundle.tar.gz" % code`. -/
def bundleArchiveFn (code : String) : String := code ++ "-pdb-bundle.tar.gz"

/-- The bundle container name `"%s-pdb-bundle.tar" % code`. -/
def bundleFinalName (code : String) : String := code ++ "-pdb-bundle.tar"

/-- The destination directory shared by the three fetch methods: the
caller-supplied `pdir` if given, else the current or obsolete root,
nested under `code[1:3]` unless `flat_tree` is set. -/
def PDBList.resolvePath (self : PDBList) (code : String) (obsolete : Bool)
    (pdir : Option FsPath) : FsPath :=
  match pdir with
  | none =>
    let path := if !obsolete then self.local_pdb else self.obsolete_pdb
    if !self.flat_tree then path ++ [slice13 code] else path
  | some p => p

/-- The URL built by `retrieve_pdb_file` (with `code` already lowercased). -/
def PDBList.legacyUrl (self : PDBList) (code : String) (obsolete : Bool) : String :=
  self.pdb_server ++ "/pub/pdb/data/structures/"
    ++ (if !obsolete then "divided" else "obsolete")
    ++ "/pdb/" ++ slice13 code ++ "/" ++ legacyArchiveFn code

/-- The URL built by `download_mmcif_file` (with `code` already lowercased). -/
def PDBList.mmcifUrl (self : PDBList) (code : String) (obsolete : Bool) : String :=
  self.pdb_server ++ "/pub/pdb/data/structures/"
    ++ (if !obsolete then "divided" else "obsolete")
    ++ "/mmCIF/" ++ slice13 code ++ "/" ++ mmcifArchiveFn code

/-- The URL built by `download_big_pdb_file` (with `code` already lowercased). -/
def PDBList.bundleUrl (self : PDBList) (code : String) : String :=
  self.pdb_server ++ "/pub/pdb/compatible/pdb_bundle/"
    ++ slice13 code ++ "/" ++ code ++ "/" ++ bundleArchiveFn code

/-- The `final_file` of `retrieve_pdb_file` for identifier `pdb_code`. -/
def PDBList.legacyFinalPath (self : PDBList) (pdb_code : String) (obsolete : Bool)
    (pdir : Option FsPath) : FsPath :=
  self.resolvePath (pyLower pdb_code) obsolete pdir ++ [legacyFinalName (pyLower pdb_code)]

/-- The `final_file` of `download_mmcif_file` for identifier `pdb_code`. -/
def PDBList.mmcifFinalPath (self : PDBList) (pdb_code : String) (obsolete : Bool)
    (pdir : Option FsPath) : FsPath :=
  self.resolvePath (pyLower pdb_code) obsolete pdir ++ [mmcifFinalName (pyLower pdb_code)]

/-- The `final_file` of `download_big_pdb_file` for identifier `pdb_code`. -/
def PDBList.bundleFinalPath (self : PDBList) (pdb_code : String) (obsolete : Bool)
    (pdir : Option FsPath) : FsPath :=
  self.resolvePath (pyLower pdb_code) obsolete pdir ++ [bundleFinalName (pyLower pdb_code)]

/-- `PDBList.retrieve_pdb_file(pdb_code, obsolete, pdir)`.  When the
length check fails only a message is printed and control reaches
`return final_file` with `final_file` unbound (`PyResult.nameError`).
Otherwise the destination directory is created if missing, the download
is skipped if the decompressed file already exists and `overwrite` is
clear, and else the archive is retrieved, decompressed, and removed; a
`URLError` is caught and the (never written) `final_file` is returned. -/
def PDBList.retrieve_pdb_file (self : PDBList) (fetchFile : String → Option Content)
    (gunzip : Content → Content) (pdb_code : String) (obsolete : Bool)
    (pdir : Option FsPath) (fs : FS) : FetchOutcome :=
  if pdb_code.length ≠ 4 then
    ⟨.nameError, fs, []⟩
  else
    let code := pyLower pdb_code
    let url := self.legacyUrl code obsolete
    let path := self.resolvePath code obsolete pdir
    let fs := if !fs.pathExists path then fs.makedirs path else fs
    let filename := path ++ [legacyArchiveFn code]
    let final_file := path ++ [legacyFinalName code]
    if !self.overwrite && fs.pathExists final_file then
      ⟨.ok final_file, fs, []⟩
    else
      match fetchFile url with
      | none => ⟨.ok final_file, fs, [url]⟩
      | some data =>
        let fs := fs.writeFile filename data
        let fs := fs.writeFile final_file (gunzip data)
        let fs := fs.removeFile filename
        ⟨.ok final_file, fs, [url]⟩

/-- `PDBList.download_mmcif_file(pdb_code, obsolete, pdir)`; identical in
structure to `retrieve_pdb_file` with the mmCIF names and URL. -/
def PDBList.download_mmcif_file (self : PDBList) (fetchFile : String → Option Content)
    (gunzip : Content → Content) (pdb_code : String) (obsolete : Bool)
    (pdir : Option FsPath) (fs : FS) : FetchOutcome :=
  if pdb_code.length ≠ 4 then
    ⟨.nameError, fs, []⟩
  else
    let code := pyLower pdb_code
    let url := self.mmcifUrl code obsolete
    let path := self.resolvePath code obsolete pdir
    let fs := if !fs.pathExists path then fs.makedirs path else fs
    let filename := path ++ [mmcifArchiveFn code]
    let final_file := path ++ [mmcifFinalName code]
    if !self.overwrite && fs.pathExists final_file then
      ⟨.ok final_file, fs, []⟩
    else
      match fetchFile url with
      | none => ⟨.ok final_file, fs, [url]⟩
      | some data =>
        let fs := fs.writeFile filename data
        let fs := fs.writeFile final_file (gunzip data)
        let fs := fs.removeFile filename
        ⟨.ok final_file, fs, [url]⟩

/-- `PDBList.download_big_pdb_file(pdb_code, obsolete, pdir, unzip)`.
The skip check tests the `.tar` container path.  Without `unzip` the
archive is gunzipped into the container and removed; with `unzip` the
archive members are extracted into the destination directory and the
compressed archive is left in place (its docstring: it "leaves extra tar
archive for other purposes"). -/
def PDBList.download_big_pdb_file (self : PDBList) (fetchFile : String → Option Content)
    (gunzip : Content → Content) (untar : Content → List (String × Content))
    (pdb_code : String) (obsolete : Bool) (pdir : Option FsPath) (unzip : Bool)
    (fs : FS) : FetchOutcome :=
  if pdb_code.length ≠ 4 then
    ⟨.nameError, fs, []⟩
  else
    let code := pyLower pdb_code
    let url := self.bundleUrl code
    let path := self.resolvePath code obsolete pdir
    let fs := if !fs.pathExists path then fs.makedirs path else fs
    let filename := path ++ [bundleArchiveFn code]
    let final_file := path ++ [bundleFinalName code]
    if !self.overwrite && fs.pathExists final_file then
      ⟨.ok final_file, fs, []⟩
    else
      match fetchFile url with
      | none => ⟨.ok final_file, fs, [url]⟩
      | some data =>
        let fs := fs.writeFile filename data
        if !unzip then
          let fs := fs.writeFile final_file (gunzip data)
          let fs := fs.removeFile filename
          ⟨.ok final_file, fs, [url]⟩
        else
          let fs := (untar data).foldl (fun f m => f.writeFile (path ++ [m.1]) m.2) fs
          ⟨.ok final_file, fs, [url]⟩

/-- The `old_file` computed for an obsolete entry in `update_pdb`. -/
def PDBList.obsOldFile (self : PDBList) (pdb_code : String) : FsPath :=
  if self.flat_tree then self.local_pdb ++ ["pdb" ++ pdb_code ++ ".ent"]
  else self.local_pdb ++ [slice13 pdb_code, "pdb" ++ pdb_code ++ ".ent"]

/-- The `new_dir` computed for an obsolete entry in `update_pdb`. -/
def PDBList.obsNewDir (self : PDBList) (pdb_code : String) : FsPath :=
  if self.flat_tree then self.obsolete_pdb else self.obsolete_pdb ++ [slice13 pdb_code]

/-- The `new_file` computed for an obsolete entry in `update_pdb`. -/
def PDBList.obsNewFile (self : PDBList) (pdb_code : String) : FsPath :=
  self.obsNewDir pdb_code ++ ["pdb" ++ pdb_code ++ ".ent"]

/-- The per-identifier body of the obsolete-relocation loop of
`update_pdb`: if the legacy file is present in the current tree, the
partition directory is created in the obsolete tree if missing and the
file is moved there; otherwise only a message is printed. -/
def PDBList.moveObsoleteStep (self : PDBList) (pdb_code : String) (fs : FS) : FS :=
  if fs.isFile (self.obsOldFile pdb_code) then
    let fs := if !fs.isDir (self.obsNewDir pdb_code) then fs.mkdir (self.obsNewDir pdb_code)
              else fs
    fs.move (self.obsOldFile pdb_code) (self.obsNewFile pdb_code)
  else fs

/-- `PDBList.update_pdb()`: asserts both tree roots are directories,
obtains the weekly change lists, fetches every new and modified entry
(each fetch wrapped in `try/except`, so its outcome never stops the
loop), then relocates every obsolete entry.  `none` models an uncaught
exception from the asserts or the listing retrieval. -/
def PDBList.update_pdb (self : PDBList) (fetchLines : String → Option (List String))
    (fetchFile : String → Option Content) (gunzip : Content → Content)
    (fs : FS) : Option FS :=
  if !fs.isDir self.local_pdb then none
  else if !fs.isDir self.obsolete_pdb then none
  else
    match self.get_recent_changes fetchLines with
    | none => none
    | some (new, modified, obsolete) =>
      let fs := (new ++ modified).foldl
        (fun f code => (self.retrieve_pdb_file fetchFile gunzip code false none f).fs) fs
      some (obsolete.foldl (fun f code => self.moveObsoleteStep code f) fs)

/-! ### Lemmas about the filesystem model -/

@[simp] theorem FS.files_writeFile (fs : FS) (p : FsPath) (c : Content) (q : FsPath) :
    (fs.writeFile p c).files q = if q = p then some c else fs.files q := rfl

@[simp] theorem FS.dirs_writeFile (fs : FS) (p : FsPath) (c : Content) :
    (fs.writeFile p c).dirs = fs.dirs := rfl

@[simp] theorem FS.files_removeFile (fs : FS) (p : FsPath) (q : FsPath) :
    (fs.removeFile p).files q = if q = p then none else fs.files q := rfl

@[simp] theorem FS.dirs_removeFile (fs : FS) (p : FsPath) :
    (fs.removeFile p).dirs = fs.dirs := rfl

@[simp] theorem FS.files_makedirs (fs : FS) (p : FsPath) :
    (fs.makedirs p).files = fs.files := rfl

@[simp] theorem FS.dirs_makedirs (fs : FS) (p : FsPath) (q : FsPath) :
    (fs.makedirs p).dirs q = (decide (q ∈ pathParents p) || fs.dirs q) := rfl

@[simp] theorem FS.files_mkdir (fs : FS) (p : FsPath) :
    (fs.mkdir p).files = fs.files := rfl

@[simp] theorem FS.dirs_mkdir (fs : FS) (p : FsPath) (q : FsPath) :
    (fs.mkdir p).dirs q = (decide (q = p) || fs.dirs q) := rfl

theorem length_le_of_mem_pathParents {q p : FsPath} (h : q ∈ pathParents p) :
    q.length ≤ p.length := by
  induction p generalizing q with
  | nil => simp [pathParents] at h
  | cons x xs ih =>
    simp only [pathParents, List.mem_cons, List.mem_map] at h
    rcases h with h | ⟨r, hr, rfl⟩
    · subst h; simp
    · simpa using ih hr

theorem self_mem_pathParents : ∀ (p : FsPath), p ≠ [] → p ∈ pathParents p
  | [], h => absurd rfl h
  | x :: xs, _ => by
    cases xs with
    | nil => simp [pathParents]
    | cons y ys =>
      show x :: y :: ys ∈ [x] :: (pathParents (y :: ys)).map (fun p => x :: p)
      exact List.mem_cons_of_mem _
        (List.mem_map_of_mem _ (self_mem_pathParents (y :: ys) (by simp)))

theorem FS.isFile_eq_isSome (fs : FS) (p : FsPath) :
    fs.isFile p = (fs.files p).isSome := rfl

theorem FS.pathExists_makedirs_of_longer (fs : FS) (p q : FsPath)
    (h : p.length < q.length) : (fs.makedirs p).pathExists q = fs.pathExists q := by
  have hq : q ∉ pathParents p := fun hm =>
    absurd (length_le_of_mem_pathParents hm) (by omega)
  simp [FS.pathExists, FS.isFile, FS.isDir, FS.makedirs, hq]

theorem FS.pathExists_makedirs_mono (fs : FS) (p q : FsPath)
    (h : fs.pathExists q = true) : (fs.makedirs p).pathExists q = true := by
  simp only [FS.pathExists, FS.isFile, FS.isDir, FS.makedirs, Bool.or_eq_true] at h ⊢
  rcases h with h | h
  · exact Or.inl h
  · exact Or.inr (by simp [h])

theorem FS.pathExists_mkdir_mono (fs : FS) (p q : FsPath)
    (h : fs.pathExists q = true) : (fs.mkdir p).pathExists q = true := by
  simp only [FS.pathExists, FS.isFile, FS.isDir, FS.mkdir, Bool.or_eq_true] at h ⊢
  rcases h with h | h
  · exact Or.inl h
  · exact Or.inr (by simp [h])

/-! ### Lemmas about strings and path components -/

theorem lastChar_append (a b : String) (h : b.data ≠ []) :
    lastChar (a ++ b) = lastChar b := by
  simp only [lastChar, String.data_append]
  exact List.getLast?_append_of_ne_nil _ h

theorem string_sandwich_inj (l r x y : String) (h : l ++ x ++ r = l ++ y ++ r) :
    x = y := by
  have hd : (l.data ++ x.data) ++ r.data = (l.data ++ y.data) ++ r.data := by
    have := congrArg String.data h
    simpa [String.data_append] using this
  have h1 : l.data ++ x.data = l.data ++ y.data := List.append_cancel_right hd
  exact String.ext (List.append_cancel_left h1)

theorem legacyFinalName_inj {x y : String}
    (h : legacyFinalName x = legacyFinalName y) : x = y :=
  string_sandwich_inj "pdb" ".ent" x y h

theorem legacyFinalName_ne_archive (x y : String) :
    legacyFinalName x ≠ legacyArchiveFn y := by
  intro h
  have h1 : lastChar (legacyFinalName x) = lastChar (legacyArchiveFn y) := by rw [h]
  rw [legacyFinalName, legacyArchiveFn, lastChar_append _ _ (by decide),
    lastChar_append _ _ (by decide)] at h1
  exact absurd h1 (by decide)

theorem mmcifFinalName_ne_archive (x y : String) :
    mmcifFinalName x ≠ mmcifArchiveFn y := by
  intro h
  have h1 : lastChar (mmcifFinalName x) = lastChar (mmcifArchiveFn y) := by rw [h]
  rw [mmcifFinalName, mmcifArchiveFn, lastChar_append _ _ (by decide),
    lastChar_append _ _ (by decide)] at h1
  exact absurd h1 (by decide)

theorem bundleFinalName_ne_archive (x y : String) :
    bundleFinalName x ≠ bundleArchiveFn y := by
  intro h
  have h1 : lastChar (bundleFinalName x) = lastChar (bundleArchiveFn y) := by rw [h]
  rw [bundleFinalName, bundleArchiveFn, lastChar_append _ _ (by decide),
    lastChar_append _ _ (by decide)] at h1
  exact absurd h1 (by decide)

theorem append_root_inj {root : FsPath} {xs ys : List String}
    (h : root ++ xs = root ++ ys) : xs = ys :=
  List.append_cancel_left h

theorem FS.files_move_frame (fs : FS) (src dst q : FsPath) (h1 : q ≠ src) (h2 : q ≠ dst) :
    (fs.move src dst).files q = fs.files q := by
  unfold FS.move; split <;> simp [h1, h2]

theorem FS.files_move_dst (fs : FS) (src dst : FsPath) (v : Content)
    (h : fs.files src = some v) : (fs.move src dst).files dst = some v := by
  unfold FS.move; rw [h]; simp

theorem FS.files_move_src (fs : FS) (src dst : FsPath)
    (hne : src ≠ dst) : (fs.move src dst).files src = none ∨ fs.files src = none := by
  unfold FS.move
  cases h : fs.files src with
  | none => exact Or.inr rfl
  | some c => exact Or.inl (by simp [hne])

theorem FS.dirs_move (fs : FS) (src dst : FsPath) : (fs.move src dst).dirs = fs.dirs := by
  unfold FS.move; split <;> rfl

theorem PDBList.retrieve_pdb_file_files_frame (self : PDBList)
    (fetchFile : String → Option Content) (gunzip : Content → Content)
    (code : String) (obsolete : Bool) (pdir : Option FsPath) (fs : FS) (q : FsPath)
    (h1 : q ≠ self.resolvePath (pyLower code) obsolete pdir ++ [legacyArchiveFn (pyLower code)])
    (h2 : q ≠ self.resolvePath (pyLower code) obsolete pdir ++ [legacyFinalName (pyLower code)]) :
    ((self.retrieve_pdb_file fetchFile gunzip code obsolete pdir fs).fs).files q = fs.files q := by
  unfold PDBList.retrieve_pdb_file
  split
  · rfl
  · dsimp only
    split <;> split
    · rfl
    · split
      · rfl
      · simp [h1, h2]
    · rfl
    · split
      · rfl
      · simp [h1, h2]

theorem PDBList.moveObsoleteStep_frame (self : PDBList) (d : String) (fs : FS) (q : FsPath)
    (h1 : q ≠ self.obsOldFile d) (h2 : q ≠ self.obsNewFile d) :
    (self.moveObsoleteStep d fs).files q = fs.files q := by
  unfold PDBList.moveObsoleteStep
  split
  · dsimp only
    split
    · rw [FS.files_move_frame _ _ _ _ h1 h2]; rfl
    · exact FS.files_move_frame _ _ _ _ h1 h2
  · rfl

theorem PDBList.moveObsoleteStep_none (self : PDBList) (d : String) (fs : FS) (q : FsPath)
    (h2 : q ≠ self.obsNewFile d) (h : fs.files q = none) :
    (self.moveObsoleteStep d fs).files q = none := by
  unfold PDBList.moveObsoleteStep
  split
  · dsimp only
    by_cases hq : q = self.obsOldFile d
    · subst hq
      split <;> (unfold FS.move; split <;> simp [h2, h])
    · split
      · rw [FS.files_move_frame _ _ _ _ hq h2]; exact h
      · rw [FS.files_move_frame _ _ _ _ hq h2]; exact h
  · exact h

theorem PDBList.moveObsoleteStep_dirs_mono (self : PDBList) (d : String) (fs : FS) (q : FsPath)
    (h : fs.dirs q = true) : (self.moveObsoleteStep d fs).dirs q = true := by
  unfold PDBList.moveObsoleteStep
  split
  · dsimp only
    rw [FS.dirs_move]
    split
    · simp [h]
    · exact h
  · exact h

theorem PDBList.moveObsoleteStep_moves (self : PDBList) (c : String) (fs : FS) (v : Content)
    (hold : fs.files (self.obsOldFile c) = some v)
    (hne : self.obsOldFile c ≠ self.obsNewFile c) :
    (self.moveObsoleteStep c fs).files (self.obsNewFile c) = some v ∧
    (self.moveObsoleteStep c fs).files (self.obsOldFile c) = none ∧
    (self.moveObsoleteStep c fs).dirs (self.obsNewDir c) = true := by
  unfold PDBList.moveObsoleteStep
  rw [if_pos (by simp [FS.isFile, hold])]
  dsimp only
  refine ⟨?_, ?_, ?_⟩
  · split <;> exact FS.files_move_dst _ _ _ v (by simp [hold])
  · split <;> (unfold FS.move; simp [hold, hne])
  · rw [FS.dirs_move]
    split
    · simp
    · rename_i hdir
      simp only [Bool.not_eq_true', Bool.not_eq_false] at hdir
      exact hdir

theorem obsOldFile_ne_obsNewFile (self : PDBList) (c d : String)
    (hobs : self.obsolete_pdb = self.local_pdb ++ ["obsolete"]) :
    self.obsOldFile c ≠ self.obsNewFile d := by
  unfold PDBList.obsOldFile PDBList.obsNewFile PDBList.obsNewDir
  rw [hobs]
  intro h
  cases hft : self.flat_tree <;> simp [hft, List.append_assoc] at h

theorem obsOldFile_ne_of_code_ne (self : PDBList) {c d : String} (h : c ≠ d) :
    self.obsOldFile c ≠ self.obsOldFile d := by
  unfold PDBList.obsOldFile
  intro he
  cases hft : self.flat_tree <;> simp [hft, List.append_assoc] at he
  · exact h (string_sandwich_inj "pdb" ".ent" c d he.2)
  · exact h (string_sandwich_inj "pdb" ".ent" c d he)

theorem obsNewFile_ne_of_code_ne (self : PDBList) {c d : String} (h : c ≠ d) :
    self.obsNewFile c ≠ self.obsNewFile d := by
  unfold PDBList.obsNewFile PDBList.obsNewDir
  intro he
  cases hft : self.flat_tree <;> simp [hft, List.append_assoc] at he
  · exact h (string_sandwich_inj "pdb" ".ent" c d he.2)
  · exact h (string_sandwich_inj "pdb" ".ent" c d he)

theorem obsOldFile_ne_fetch_final (self : PDBList) {a c : String} (h : pyLower a ≠ c) :
    self.obsOldFile c ≠ self.resolvePath (pyLower a) false none ++ [legacyFinalName (pyLower a)] := by
  unfold PDBList.obsOldFile PDBList.resolvePath legacyFinalName
  intro he
  cases hft : self.flat_tree <;> simp [hft, List.append_assoc] at he
  · exact h (string_sandwich_inj "pdb" ".ent" _ _ he.2.symm)
  · exact h (string_sandwich_inj "pdb" ".ent" _ _ he.symm)

theorem obsOldFile_ne_fetch_archive (self : PDBList) (a c : String) :
    self.obsOldFile c ≠ self.resolvePath (pyLower a) false none ++ [legacyArchiveFn (pyLower a)] := by
  unfold PDBList.obsOldFile PDBList.resolvePath
  intro he
  cases hft : self.flat_tree <;> simp [hft, List.append_assoc] at he
  · exact legacyFinalName_ne_archive c (pyLower a) (by simpa [legacyFinalName] using he.2)
  · exact legacyFinalName_ne_archive c (pyLower a) (by simpa [legacyFinalName] using he)

theorem obsNewFile_ne_under_local (self : PDBList) (y : String) (x : String) (c : String)
    (hobs : self.obsolete_pdb = self.local_pdb ++ ["obsolete"]) :
    self.obsNewFile c ≠ self.resolvePath y false none ++ [x] := by
  unfold PDBList.obsNewFile PDBList.obsNewDir PDBList.resolvePath
  rw [hobs]
  intro he
  cases hft : self.flat_tree <;> simp [hft, List.append_assoc] at he

theorem fetchFold_files_frame (self : PDBList) (ff : String → Option Content)
    (g : Content → Content) (l : List String) (q : FsPath)
    (h : ∀ a ∈ l, q ≠ self.resolvePath (pyLower a) false none ++ [legacyArchiveFn (pyLower a)] ∧
                  q ≠ self.resolvePath (pyLower a) false none ++ [legacyFinalName (pyLower a)]) :
    ∀ fs : FS,
      (l.foldl (fun f code => (self.retrieve_pdb_file ff g code false none f).fs) fs).files q
        = fs.files q := by
  induction l with
  | nil => intro fs; rfl
  | cons a t ih =>
    intro fs
    rw [List.foldl_cons, ih (fun b hb => h b (List.mem_cons_of_mem _ hb))]
    exact self.retrieve_pdb_file_files_frame ff g a false none fs q
      (h a (List.mem_cons_self _ _)).1 (h a (List.mem_cons_self _ _)).2

theorem moveFold_preserves (self : PDBList) (c : String) (v : Content)
    (hobs : self.obsolete_pdb = self.local_pdb ++ ["obsolete"]) (l : List String) :
    ∀ fs : FS, fs.files (self.obsNewFile c) = some v →
      fs.files (self.obsOldFile c) = none →
      fs.dirs (self.obsNewDir c) = true →
      ((l.foldl (fun f d => self.moveObsoleteStep d f) fs)).files (self.obsNewFile c) = some v ∧
      ((l.foldl (fun f d => self.moveObsoleteStep d f) fs)).files (self.obsOldFile c) = none ∧
      ((l.foldl (fun f d => self.moveObsoleteStep d f) fs)).dirs (self.obsNewDir c) = true := by
  induction l with
  | nil => exact fun fs h1 h2 h3 => ⟨h1, h2, h3⟩
  | cons d t ih =>
    intro fs h1 h2 h3
    rw [List.foldl_cons]
    refine ih _ ?_ ?_ (self.moveObsoleteStep_dirs_mono d fs _ h3)
    · by_cases hdc : d = c
      · subst hdc
        unfold PDBList.moveObsoleteStep
        rw [if_neg (by simp [FS.isFile, h2])]
        exact h1
      · rw [self.moveObsoleteStep_frame d fs _
          (Ne.symm (obsOldFile_ne_obsNewFile self d c hobs))
          (obsNewFile_ne_of_code_ne self (fun he => hdc he.symm))]
        exact h1
    · by_cases hdc : d = c
      · subst hdc
        unfold PDBList.moveObsoleteStep
        rw [if_neg (by simp [FS.isFile, h2])]
        exact h2
      · exact self.moveObsoleteStep_none d fs _
          (obsOldFile_ne_obsNewFile self c d hobs) h2

theorem moveFold_moves (self : PDBList) (c : String) (v : Content)
    (hobs : self.obsolete_pdb = self.local_pdb ++ ["obsolete"]) (l : List String) :
    ∀ fs : FS, c ∈ l → fs.files (self.obsOldFile c) = some v →
      ((l.foldl (fun f d => self.moveObsoleteStep d f) fs)).files (self.obsNewFile c) = some v ∧
      ((l.foldl (fun f d => self.moveObsoleteStep d f) fs)).files (self.obsOldFile c) = none ∧
      ((l.foldl (fun f d => self.moveObsoleteStep d f) fs)).dirs (self.obsNewDir c) = true := by
  induction l with
  | nil => intro fs hc; cases hc
  | cons d t ih =>
    intro fs hc hold
    rw [List.foldl_cons]
    by_cases hdc : d = c
    · subst hdc
      obtain ⟨m1, m2, m3⟩ := self.moveObsoleteStep_moves d fs v hold
        (obsOldFile_ne_obsNewFile self d d hobs)
      exact moveFold_preserves self d v hobs t _ m1 m2 m3
    · have hc' : c ∈ t := by
        rcases List.mem_cons.mp hc with h | h
        · exact absurd h.symm hdc
        · exact h
      refine ih _ hc' ?_
      rw [self.moveObsoleteStep_frame d fs _
        (obsOldFile_ne_of_code_ne self (fun he => hdc he.symm))
        (obsOldFile_ne_obsNewFile self c d hobs)]
      exact hold

/-- C6: during `update_pdb`, an obsolete identifier whose legacy file
exists in the current tree has that file moved — not copied and not left
behind — into the obsolete tree at the mirrored partition path (obsolete
root directly under flat layout, `obsolete root/id[1:3]` under
partitioned layout), creating the obsolete partition directory if
needed; afterwards the file exists in the obsolete tree with unchanged
content and no longer exists in the current tree. -/
theorem claimC6_thm (self : PDBList)
    (fetchLines : String → Option (List String)) (fetchFile : String → Option Content)
    (gunzip : Content → Content) (fs : FS)
    (new modified obs : List String) (c : String) (v : Content)
    (hobs : self.obsolete_pdb = self.local_pdb ++ ["obsolete"])
    (hrec : self.get_recent_changes fetchLines = some (new, modified, obs))
    (hc : c ∈ obs)
    (hdisj : ∀ a ∈ new ++ modified, pyLower a ≠ c)
    (hd1 : fs.isDir self.local_pdb = true)
    (hd2 : fs.isDir self.obsolete_pdb = true)
    (hold : fs.files (self.obsOldFile c) = some v) :
    ∃ fs', self.update_pdb fetchLines fetchFile gunzip fs = some fs' ∧
      fs'.files (self.obsNewFile c) = some v ∧
      fs'.files (self.obsOldFile c) = none ∧
      fs'.isDir (self.obsNewDir c) = true := by
  unfold PDBList.update_pdb
  rw [if_neg (by simp [hd1]), if_neg (by simp [hd2]), hrec]
  dsimp only
  have hframe := fetchFold_files_frame self fetchFile gunzip (new ++ modified)
    (self.obsOldFile c)
    (fun a ha => ⟨obsOldFile_ne_fetch_archive self a c,
                  obsOldFile_ne_fetch_final self (hdisj a ha)⟩) fs
  have hstart : ((new ++ modified).foldl
      (fun f code => (self.retrieve_pdb_file fetchFile gunzip code false none f).fs) fs).files
      (self.obsOldFile c) = some v := by rw [hframe]; exact hold
  obtain ⟨q1, q2, q3⟩ := moveFold_moves self c v hobs obs _ hc hstart
  exact ⟨_, rfl, q1, q2, q3⟩

/-- C6 witness: a concrete sync in which obsolete entry `3ghi`'s legacy
file is moved from the current tree into the obsolete tree. -/
theorem claimC6_witness :
    ∃ fs', (PDBList.update_pdb ⟨"S", ["p"], ["p", "obsolete"], false, false⟩
        (fun u =>
          if u = "S/pub/pdb/data/status/" then some ["d 20031013"]
          else if u = "S/pub/pdb/data/status/20031013/added.pdb" then some ["1abc\n"]
          else if u = "S/pub/pdb/data/status/20031013/modified.pdb" then some ["2def\n"]
          else if u = "S/pub/pdb/data/status/20031013/obsolete.pdb" then some ["3ghi\n"]
          else none)
        (fun _ => none) (fun c => c)
        ⟨fun q => if q = ["p", "gh", "pdb3ghi.ent"] then some "V" else none,
         fun q => decide (q = ["p"]) || decide (q = ["p", "obsolete"])⟩) = some fs' ∧
      fs'.files (PDBList.obsNewFile ⟨"S", ["p"], ["p", "obsolete"], false, false⟩ "3ghi") = some "V" ∧
      fs'.files (PDBList.obsOldFile ⟨"S", ["p"], ["p", "obsolete"], false, false⟩ "3ghi") = none ∧
      fs'.isDir (PDBList.obsNewDir ⟨"S", ["p"], ["p", "obsolete"], false, false⟩ "3ghi") = true :=
  claimC6_thm _ _ _ _ _ ["1abc"] ["2def"] ["3ghi"] "3ghi" "V"
    rfl (by decide) (by decide) (by decide) (by decide) (by decide) (by decide)

theorem finalPath_ne_archivePath_legacy (path : FsPath) (x y : String) :
    path ++ [legacyFinalName x] ≠ path ++ [legacyArchiveFn y] := by
  intro h
  exact legacyFinalName_ne_archive x y (by simpa using append_root_inj h)

theorem finalPath_ne_archivePath_mmcif (path : FsPath) (x y : String) :
    path ++ [mmcifFinalName x] ≠ path ++ [mmcifArchiveFn y] := by
  intro h
  exact mmcifFinalName_ne_archive x y (by simpa using append_root_inj h)

theorem finalPath_ne_archivePath_bundle (path : FsPath) (x y : String) :
    path ++ [bundleFinalName x] ≠ path ++ [bundleArchiveFn y] := by
  intro h
  exact bundleFinalName_ne_archive x y (by simpa using append_root_inj h)

theorem PDBList.retrieve_skip (self : PDBList) (ff : String → Option Content)
    (g : Content → Content) (code : String) (obsolete : Bool) (pdir : Option FsPath)
    (fs : FS) (hlen : code.length = 4) (hov : self.overwrite = false)
    (hex : fs.pathExists (self.legacyFinalPath code obsolete pdir) = true) :
    (self.retrieve_pdb_file ff g code obsolete pdir fs).ret
        = .ok (self.legacyFinalPath code obsolete pdir) ∧
    (self.retrieve_pdb_file ff g code obsolete pdir fs).retrieved = [] ∧
    (self.retrieve_pdb_file ff g code obsolete pdir fs).fs.files = fs.files := by
  unfold PDBList.retrieve_pdb_file
  unfold PDBList.legacyFinalPath at hex
  rw [if_neg (by simp [hlen])]
  dsimp only
  split
  · rw [if_pos (by simp [hov, FS.pathExists_makedirs_mono _ _ _ hex])]
    exact ⟨rfl, rfl, rfl⟩
  · rw [if_pos (by simp [hov, hex])]
    exact ⟨rfl, rfl, rfl⟩

theorem PDBList.retrieve_download (self : PDBList) (ff : String → Option Content)
    (g : Content → Content) (code : String) (obsolete : Bool) (pdir : Option FsPath)
    (fs : FS) (data : Content)
    (hlen : code.length = 4) (hov : self.overwrite = false)
    (habs : fs.pathExists (self.legacyFinalPath code obsolete pdir) = false)
    (hfetch : ff (self.legacyUrl (pyLower code) obsolete) = some data) :
    (self.retrieve_pdb_file ff g code obsolete pdir fs).ret
        = .ok (self.legacyFinalPath code obsolete pdir) ∧
    (self.retrieve_pdb_file ff g code obsolete pdir fs).retrieved
        = [self.legacyUrl (pyLower code) obsolete] ∧
    (self.retrieve_pdb_file ff g code obsolete pdir fs).fs.files
        (self.legacyFinalPath code obsolete pdir) = some (g data) ∧
    (self.retrieve_pdb_file ff g code obsolete pdir fs).fs.files
        (self.resolvePath (pyLower code) obsolete pdir ++ [legacyArchiveFn (pyLower code)])
        = none := by
  unfold PDBList.retrieve_pdb_file
  unfold PDBList.legacyFinalPath at habs ⊢
  rw [if_neg (by simp [hlen])]
  dsimp only
  have hne := finalPath_ne_archivePath_legacy
    (self.resolvePath (pyLower code) obsolete pdir) (pyLower code) (pyLower code)
  split
  · rename_i hmk
    rw [if_neg (by
      simp only [Bool.not_eq_true', Bool.not_eq_false] at hmk
      rw [FS.pathExists_makedirs_of_longer _ _ _ (by simp)]
      simp [hov, habs])]
    rw [hfetch]
    exact ⟨rfl, rfl, by simp [hne], by simp⟩
  · rw [if_neg (by simp [hov, habs])]
    rw [hfetch]
    exact ⟨rfl, rfl, by simp [hne], by simp⟩

theorem PDBList.mmcif_skip (self : PDBList) (ff : String → Option Content)
    (g : Content → Content) (code : String) (obsolete : Bool) (pdir : Option FsPath)
    (fs : FS) (hlen : code.length = 4) (hov : self.overwrite = false)
    (hex : fs.pathExists (self.mmcifFinalPath code obsolete pdir) = true) :
    (self.download_mmcif_file ff g code obsolete pdir fs).ret
        = .ok (self.mmcifFinalPath code obsolete pdir) ∧
    (self.download_mmcif_file ff g code obsolete pdir fs).retrieved = [] ∧
    (self.download_mmcif_file ff g code obsolete pdir fs).fs.files = fs.files := by
  unfold PDBList.download_mmcif_file
  unfold PDBList.mmcifFinalPath at hex
  rw [if_neg (by simp [hlen])]
  dsimp only
  split
  · rw [if_pos (by simp [hov, FS.pathExists_makedirs_mono _ _ _ hex])]
    exact ⟨rfl, rfl, rfl⟩
  · rw [if_pos (by simp [hov, hex])]
    exact ⟨rfl, rfl, rfl⟩

theorem PDBList.mmcif_download (self : PDBList) (ff : String → Option Content)
    (g : Content → Content) (code : String) (obsolete : Bool) (pdir : Option FsPath)
    (fs : FS) (data : Content)
    (hlen : code.length = 4) (hov : self.overwrite = false)
    (habs : fs.pathExists (self.mmcifFinalPath code obsolete pdir) = false)
    (hfetch : ff (self.mmcifUrl (pyLower code) obsolete) = some data) :
    (self.download_mmcif_file ff g code obsolete pdir fs).ret
        = .ok (self.mmcifFinalPath code obsolete pdir) ∧
    (self.download_mmcif_file ff g code obsolete pdir fs).retrieved
        = [self.mmcifUrl (pyLower code) obsolete] ∧
    (self.download_mmcif_file ff g code obsolete pdir fs).fs.files
        (self.mmcifFinalPath code obsolete pdir) = some (g data) ∧
    (self.download_mmcif_file ff g code obsolete pdir fs).fs.files
        (self.resolvePath (pyLower code) obsolete pdir ++ [mmcifArchiveFn (pyLower code)])
        = none := by
  unfold PDBList.download_mmcif_file
  unfold PDBList.mmcifFinalPath at habs ⊢
  rw [if_neg (by simp [hlen])]
  dsimp only
  have hne := finalPath_ne_archivePath_mmcif
    (self.resolvePath (pyLower code) obsolete pdir) (pyLower code) (pyLower code)
  split
  · rename_i hmk
    rw [if_neg (by
      simp only [Bool.not_eq_true', Bool.not_eq_false] at hmk
      rw [FS.pathExists_makedirs_of_longer _ _ _ (by simp)]
      simp [hov, habs])]
    rw [hfetch]
    exact ⟨rfl, rfl, by simp [hne], by simp⟩
  · rw [if_neg (by simp [hov, habs])]
    rw [hfetch]
    exact ⟨rfl, rfl, by simp [hne], by simp⟩

theorem PDBList.bundle_skip (self : PDBList) (ff : String → Option Content)
    (g : Content → Content) (untar : Content → List (String × Content))
    (code : String) (obsolete : Bool) (pdir : Option FsPath) (unzip : Bool)
    (fs : FS) (hlen : code.length = 4) (hov : self.overwrite = false)
    (hex : fs.pathExists (self.bundleFinalPath code obsolete pdir) = true) :
    (self.download_big_pdb_file ff g untar code obsolete pdir unzip fs).ret
        = .ok (self.bundleFinalPath code obsolete pdir) ∧
    (self.download_big_pdb_file ff g untar code obsolete pdir unzip fs).retrieved = [] ∧
    (self.download_big_pdb_file ff g untar code obsolete pdir unzip fs).fs.files
        = fs.files := by
  unfold PDBList.download_big_pdb_file
  unfold PDBList.bundleFinalPath at hex
  rw [if_neg (by simp [hlen])]
  dsimp only
  split
  · rw [if_pos (by simp [hov, FS.pathExists_makedirs_mono _ _ _ hex])]
    exact ⟨rfl, rfl, rfl⟩
  · rw [if_pos (by simp [hov, hex])]
    exact ⟨rfl, rfl, rfl⟩

theorem PDBList.bundle_download_nounzip (self : PDBList) (ff : String → Option Content)
    (g : Content → Content) (untar : Content → List (String × Content))
    (code : String) (obsolete : Bool) (pdir : Option FsPath)
    (fs : FS) (data : Content)
    (hlen : code.length = 4) (hov : self.overwrite = false)
    (habs : fs.pathExists (self.bundleFinalPath code obsolete pdir) = false)
    (hfetch : ff (self.bundleUrl (pyLower code)) = some data) :
    (self.download_big_pdb_file ff g untar code obsolete pdir false fs).ret
        = .ok (self.bundleFinalPath code obsolete pdir) ∧
    (self.download_big_pdb_file ff g untar code obsolete pdir false fs).retrieved
        = [self.bundleUrl (pyLower code)] ∧
    (self.download_big_pdb_file ff g untar code obsolete pdir false fs).fs.files
        (self.bundleFinalPath code obsolete pdir) = some (g data) ∧
    (self.download_big_pdb_file ff g untar code obsolete pdir false fs).fs.files
        (self.resolvePath (pyLower code) obsolete pdir ++ [bundleArchiveFn (pyLower code)])
        = none := by
  unfold PDBList.download_big_pdb_file
  unfold PDBList.bundleFinalPath at habs ⊢
  rw [if_neg (by simp [hlen])]
  dsimp only
  have hne := finalPath_ne_archivePath_bundle
    (self.resolvePath (pyLower code) obsolete pdir) (pyLower code) (pyLower code)
  split
  · rename_i hmk
    rw [if_neg (by
      simp only [Bool.not_eq_true', Bool.not_eq_false] at hmk
      rw [FS.pathExists_makedirs_of_longer _ _ _ (by simp)]
      simp [hov, habs])]
    rw [hfetch]
    exact ⟨rfl, rfl, by simp [hne], by simp⟩
  · rw [if_neg (by simp [hov, habs])]
    rw [hfetch]
    exact ⟨rfl, rfl, by simp [hne], by simp⟩

theorem writeFold_isFile_mono (members : List (String × Content)) (path : FsPath) :
    ∀ (fs : FS) (q : FsPath), fs.isFile q = true →
      (members.foldl (fun f m => f.writeFile (path ++ [m.1]) m.2) fs).isFile q = true := by
  induction members with
  | nil => intro fs q h; exact h
  | cons m t ih =>
    intro fs q h
    rw [List.foldl_cons]
    apply ih
    by_cases hq : q = path ++ [m.1]
    · simp [FS.isFile, hq]
    · simp only [FS.isFile, FS.files_writeFile, if_neg hq]
      exact h

theorem writeFold_files_frame (members : List (String × Content)) (path : FsPath) :
    ∀ (fs : FS) (q : FsPath), (∀ m ∈ members, q ≠ path ++ [m.1]) →
      (members.foldl (fun f m => f.writeFile (path ++ [m.1]) m.2) fs).files q
        = fs.files q := by
  induction members with
  | nil => intro fs q _; rfl
  | cons m t ih =>
    intro fs q h
    rw [List.foldl_cons, ih _ q (fun b hb => h b (List.mem_cons_of_mem _ hb))]
    simp [h m (List.mem_cons_self _ _)]

theorem writeFold_dirs (members : List (String × Content)) (path : FsPath) :
    ∀ fs : FS, (members.foldl (fun f m => f.writeFile (path ++ [m.1]) m.2) fs).dirs
      = fs.dirs := by
  induction members with
  | nil => intro fs; rfl
  | cons m t ih => intro fs; rw [List.foldl_cons, ih]; rfl

theorem PDBList.bundle_unzip_download (self : PDBList) (ff : String → Option Content)
    (g : Content → Content) (untar : Content → List (String × Content))
    (code : String) (obsolete : Bool) (pdir : Option FsPath)
    (fs : FS) (data : Content)
    (hlen : code.length = 4) (hov : self.overwrite = false)
    (habs : fs.pathExists (self.bundleFinalPath code obsolete pdir) = false)
    (hfetch : ff (self.bundleUrl (pyLower code)) = some data) :
    (self.download_big_pdb_file ff g untar code obsolete pdir true fs).ret
        = .ok (self.bundleFinalPath code obsolete pdir) ∧
    (self.download_big_pdb_file ff g untar code obsolete pdir true fs).retrieved
        = [self.bundleUrl (pyLower code)] ∧
    (self.download_big_pdb_file ff g untar code obsolete pdir true fs).fs.isFile
        (self.resolvePath (pyLower code) obsolete pdir ++ [bundleArchiveFn (pyLower code)])
        = true := by
  unfold PDBList.download_big_pdb_file
  unfold PDBList.bundleFinalPath at habs ⊢
  rw [if_neg (by simp [hlen])]
  dsimp only
  split
  · rename_i hmk
    rw [if_neg (by
      simp only [Bool.not_eq_true', Bool.not_eq_false] at hmk
      rw [FS.pathExists_makedirs_of_longer _ _ _ (by simp)]
      simp [hov, habs])]
    rw [hfetch]
    refine ⟨rfl, rfl, ?_⟩
    exact writeFold_isFile_mono _ _ _ _ (by simp [FS.isFile])
  · rw [if_neg (by simp [hov, habs])]
    rw [hfetch]
    refine ⟨rfl, rfl, ?_⟩
    exact writeFold_isFile_mono _ _ _ _ (by simp [FS.isFile])

theorem PDBList.bundle_unzip_no_final (self : PDBList) (ff : String → Option Content)
    (g : Content → Content) (untar : Content → List (String × Content))
    (code : String) (obsolete : Bool) (pdir : Option FsPath)
    (fs : FS) (data : Content)
    (hlen : code.length = 4) (hov : self.overwrite = false)
    (habs : fs.pathExists (self.bundleFinalPath code obsolete pdir) = false)
    (hfetch : ff (self.bundleUrl (pyLower code)) = some data)
    (hmem : ∀ m ∈ untar data, m.1 ≠ bundleFinalName (pyLower code)) :
    (self.download_big_pdb_file ff g untar code obsolete pdir true fs).fs.pathExists
        (self.bundleFinalPath code obsolete pdir) = false := by
  have hper : ∀ m ∈ untar data,
      self.resolvePath (pyLower code) obsolete pdir ++ [bundleFinalName (pyLower code)]
        ≠ self.resolvePath (pyLower code) obsolete pdir ++ [m.1] := by
    intro m hm he
    exact hmem m hm (by simpa using (append_root_inj he).symm)
  have hne := finalPath_ne_archivePath_bundle
    (self.resolvePath (pyLower code) obsolete pdir) (pyLower code) (pyLower code)
  unfold PDBList.download_big_pdb_file
  unfold PDBList.bundleFinalPath at habs ⊢
  rw [if_neg (by simp [hlen])]
  dsimp only
  simp only [FS.pathExists, FS.isFile, FS.isDir, Bool.or_eq_false_iff] at habs
  split
  · rename_i hmk
    rw [if_neg (by
      simp only [Bool.not_eq_true', Bool.not_eq_false] at hmk
      rw [FS.pathExists_makedirs_of_longer _ _ _ (by simp)]
      simp only [FS.pathExists, FS.isFile, FS.isDir, hov, Bool.false_eq_true,
        not_false_eq_true, Bool.not_false, Bool.true_and]
      simp [habs.1, habs.2])]
    rw [hfetch]
    dsimp only
    rw [if_neg (by decide)]
    simp only [FS.pathExists, FS.isFile, FS.isDir, Bool.or_eq_false_iff]
    constructor
    · rw [writeFold_files_frame _ _ _ _ hper]
      simp [hne, habs.1]
    · rw [writeFold_dirs]
      simp only [FS.dirs_writeFile, FS.dirs_makedirs]
      have : self.resolvePath (pyLower code) obsolete pdir ++ [bundleFinalName (pyLower code)]
          ∉ pathParents (self.resolvePath (pyLower code) obsolete pdir) := by
        intro hm
        have := length_le_of_mem_pathParents hm
        simp at this
      simp [this, habs.2]
  · rw [if_neg (by simp [hov, habs.1, habs.2, FS.pathExists, FS.isFile, FS.isDir])]
    rw [hfetch]
    dsimp only
    rw [if_neg (by decide)]
    simp only [FS.pathExists, FS.isFile, FS.isDir, Bool.or_eq_false_iff]
    constructor
    · rw [writeFold_files_frame _ _ _ _ hper]
      simp [hne, habs.1]
    · rw [writeFold_dirs]
      simp [habs.2]

/-- C1 (amended): with `overwrite` disabled, each of the three
single-entry fetch methods returns the already-existing decompressed
target path immediately and attempts no retrieval; and for
`retrieve_pdb_file`, `download_mmcif_file`, and `download_big_pdb_file`
*without* extraction, two consecutive calls on an initially absent entry
perform exactly one retrieval (the first), the second call retrieving
nothing and returning the same path.  (The original claim also asserted
the idempotence part for `download_big_pdb_file` with extraction
requested, which fails: see the counterexample.) -/
theorem claimC1_thm (self : PDBList) (ff : String → Option Content)
    (g : Content → Content) (untar : Content → List (String × Content))
    (code : String) (obsolete unzip : Bool) (pdir : Option FsPath)
    (fsA fsB fsC fsD fsE fsF : FS) (dataL dataM dataB : Content)
    (hlen : code.length = 4) (hov : self.overwrite = false)
    (hA : fsA.pathExists (self.legacyFinalPath code obsolete pdir) = true)
    (hB : fsB.pathExists (self.mmcifFinalPath code obsolete pdir) = true)
    (hC : fsC.pathExists (self.bundleFinalPath code obsolete pdir) = true)
    (hD : fsD.pathExists (self.legacyFinalPath code obsolete pdir) = false)
    (hDf : ff (self.legacyUrl (pyLower code) obsolete) = some dataL)
    (hE : fsE.pathExists (self.mmcifFinalPath code obsolete pdir) = false)
    (hEf : ff (self.mmcifUrl (pyLower code) obsolete) = some dataM)
    (hF : fsF.pathExists (self.bundleFinalPath code obsolete pdir) = false)
    (hFf : ff (self.bundleUrl (pyLower code)) = some dataB) :
    ((self.retrieve_pdb_file ff g code obsolete pdir fsA).ret
        = .ok (self.legacyFinalPath code obsolete pdir) ∧
     (self.retrieve_pdb_file ff g code obsolete pdir fsA).retrieved = []) ∧
    ((self.download_mmcif_file ff g code obsolete pdir fsB).ret
        = .ok (self.mmcifFinalPath code obsolete pdir) ∧
     (self.download_mmcif_file ff g code obsolete pdir fsB).retrieved = []) ∧
    ((self.download_big_pdb_file ff g untar code obsolete pdir unzip fsC).ret
        = .ok (self.bundleFinalPath code obsolete pdir) ∧
     (self.download_big_pdb_file ff g untar code obsolete pdir unzip fsC).retrieved = []) ∧
    ((self.retrieve_pdb_file ff g code obsolete pdir fsD).ret
        = .ok (self.legacyFinalPath code obsolete pdir) ∧
     (self.retrieve_pdb_file ff g code obsolete pdir fsD).retrieved
        = [self.legacyUrl (pyLower code) obsolete] ∧
     (self.retrieve_pdb_file ff g code obsolete pdir
        (self.retrieve_pdb_file ff g code obsolete pdir fsD).fs).ret
        = .ok (self.legacyFinalPath code obsolete pdir) ∧
     (self.retrieve_pdb_file ff g code obsolete pdir
        (self.retrieve_pdb_file ff g code obsolete pdir fsD).fs).retrieved = []) ∧
    ((self.download_mmcif_file ff g code obsolete pdir fsE).ret
        = .ok (self.mmcifFinalPath code obsolete pdir) ∧
     (self.download_mmcif_file ff g code obsolete pdir fsE).retrieved
        = [self.mmcifUrl (pyLower code) obsolete] ∧
     (self.download_mmcif_file ff g code obsolete pdir
        (self.download_mmcif_file ff g code obsolete pdir fsE).fs).ret
        = .ok (self.mmcifFinalPath code obsolete pdir) ∧
     (self.download_mmcif_file ff g code obsolete pdir
        (self.download_mmcif_file ff g code obsolete pdir fsE).fs).retrieved = []) ∧
    ((self.download_big_pdb_file ff g untar code obsolete pdir false fsF).ret
        = .ok (self.bundleFinalPath code obsolete pdir) ∧
     (self.download_big_pdb_file ff g untar code obsolete pdir false fsF).retrieved
        = [self.bundleUrl (pyLower code)] ∧
     (self.download_big_pdb_file ff g untar code obsolete pdir false
        (self.download_big_pdb_file ff g untar code obsolete pdir false fsF).fs).ret
        = .ok (self.bundleFinalPath code obsolete pdir) ∧
     (self.download_big_pdb_file ff g untar code obsolete pdir false
        (self.download_big_pdb_file ff g untar code obsolete pdir false fsF).fs).retrieved
        = []) := by
  obtain ⟨a1, a2, _⟩ := self.retrieve_skip ff g code obsolete pdir fsA hlen hov hA
  obtain ⟨b1, b2, _⟩ := self.mmcif_skip ff g code obsolete pdir fsB hlen hov hB
  obtain ⟨c1, c2, _⟩ := self.bundle_skip ff g untar code obsolete pdir unzip fsC hlen hov hC
  obtain ⟨d1, d2, d3, _⟩ :=
    self.retrieve_download ff g code obsolete pdir fsD dataL hlen hov hD hDf
  obtain ⟨d4, d5, _⟩ := self.retrieve_skip ff g code obsolete pdir
    (self.retrieve_pdb_file ff g code obsolete pdir fsD).fs hlen hov
    (by simp [FS.pathExists, FS.isFile, d3])
  obtain ⟨e1, e2, e3, _⟩ :=
    self.mmcif_download ff g code obsolete pdir fsE dataM hlen hov hE hEf
  obtain ⟨e4, e5, _⟩ := self.mmcif_skip ff g code obsolete pdir
    (self.download_mmcif_file ff g code obsolete pdir fsE).fs hlen hov
    (by simp [FS.pathExists, FS.isFile, e3])
  obtain ⟨f1, f2, f3, _⟩ :=
    self.bundle_download_nounzip ff g untar code obsolete pdir fsF dataB hlen hov hF hFf
  obtain ⟨f4, f5, _⟩ := self.bundle_skip ff g untar code obsolete pdir false
    (self.download_big_pdb_file ff g untar code obsolete pdir false fsF).fs hlen hov
    (by simp [FS.pathExists, FS.isFile, f3])
  exact ⟨⟨a1, a2⟩, ⟨b1, b2⟩, ⟨c1, c2⟩, ⟨d1, d2, d4, d5⟩, ⟨e1, e2, e4, e5⟩,
    ⟨f1, f2, f4, f5⟩⟩

/-- C1 counterexample: for the bundle fetch with extraction requested,
two consecutive calls with `overwrite` disabled on an initially empty
tree perform two network retrievals, not exactly one. -/
theorem claimC1_counterexample :
    ((PDBList.download_big_pdb_file ⟨"S", ["p"], ["o"], false, false⟩ (fun _ => some "D")
        (fun c => c) (fun _ => [("1abc-pdb-bundle1.pdb", "M")]) "1abc" false none true
        FS.empty).retrieved ++
     (PDBList.download_big_pdb_file ⟨"S", ["p"], ["o"], false, false⟩ (fun _ => some "D")
        (fun c => c) (fun _ => [("1abc-pdb-bundle1.pdb", "M")]) "1abc" false none true
        (PDBList.download_big_pdb_file ⟨"S", ["p"], ["o"], false, false⟩ (fun _ => some "D")
          (fun c => c) (fun _ => [("1abc-pdb-bundle1.pdb", "M")]) "1abc" false none true
          FS.empty).fs).retrieved).length = 2 ∧
    ((PDBList.download_big_pdb_file ⟨"S", ["p"], ["o"], false, false⟩ (fun _ => some "D")
        (fun c => c) (fun _ => [("1abc-pdb-bundle1.pdb", "M")]) "1abc" false none true
        FS.empty).retrieved ++
     (PDBList.download_big_pdb_file ⟨"S", ["p"], ["o"], false, false⟩ (fun _ => some "D")
        (fun c => c) (fun _ => [("1abc-pdb-bundle1.pdb", "M")]) "1abc" false none true
        (PDBList.download_big_pdb_file ⟨"S", ["p"], ["o"], false, false⟩ (fun _ => some "D")
          (fun c => c) (fun _ => [("1abc-pdb-bundle1.pdb", "M")]) "1abc" false none true
          FS.empty).fs).retrieved).length ≠ 1 := by
  constructor
  · decide
  · decide

/-- C1 witness: concrete two-call idempotence for `retrieve_pdb_file` on
an initially empty tree — exactly one retrieval, both calls returning the
decompressed path. -/
theorem claimC1_witness :
    (PDBList.retrieve_pdb_file ⟨"S", ["p"], ["o"], false, false⟩ (fun _ => some "D")
        (fun c => c) "1abc" false none FS.empty).ret
      = .ok (PDBList.legacyFinalPath ⟨"S", ["p"], ["o"], false, false⟩ "1abc" false none) ∧
    (PDBList.retrieve_pdb_file ⟨"S", ["p"], ["o"], false, false⟩ (fun _ => some "D")
        (fun c => c) "1abc" false none FS.empty).retrieved
      = [PDBList.legacyUrl ⟨"S", ["p"], ["o"], false, false⟩ (pyLower "1abc") false] ∧
    (PDBList.retrieve_pdb_file ⟨"S", ["p"], ["o"], false, false⟩ (fun _ => some "D")
        (fun c => c) "1abc" false none
        (PDBList.retrieve_pdb_file ⟨"S", ["p"], ["o"], false, false⟩ (fun _ => some "D")
          (fun c => c) "1abc" false none FS.empty).fs).ret
      = .ok (PDBList.legacyFinalPath ⟨"S", ["p"], ["o"], false, false⟩ "1abc" false none) ∧
    (PDBList.retrieve_pdb_file ⟨"S", ["p"], ["o"], false, false⟩ (fun _ => some "D")
        (fun c => c) "1abc" false none
        (PDBList.retrieve_pdb_file ⟨"S", ["p"], ["o"], false, false⟩ (fun _ => some "D")
          (fun c => c) "1abc" false none FS.empty).fs).retrieved = [] :=
  (claimC1_thm ⟨"S", ["p"], ["o"], false, false⟩ (fun _ => some "D") (fun c => c)
    (fun _ => [("1abc-pdb-bundle1.pdb", "M")]) "1abc" false true none
    ⟨fun q => if q = ["p", "ab", "pdb1abc.ent"] then some "X" else none, fun _ => false⟩
    ⟨fun q => if q = ["p", "ab", "1abc.cif"] then some "X" else none, fun _ => false⟩
    ⟨fun q => if q = ["p", "ab", "1abc-pdb-bundle.tar"] then some "X" else none, fun _ => false⟩
    FS.empty FS.empty FS.empty "D" "D" "D"
    (by decide) rfl (by decide) (by decide) (by decide) (by decide) rfl (by decide) rfl
    (by decide) rfl).2.2.2.1

theorem PDBList.retrieve_ret (self : PDBList) (ff : String → Option Content)
    (g : Content → Content) (code : String) (obsolete : Bool) (pdir : Option FsPath)
    (fs : FS) (hlen : code.length = 4) :
    (self.retrieve_pdb_file ff g code obsolete pdir fs).ret
      = .ok (self.legacyFinalPath code obsolete pdir) ∧
    ∀ u ∈ (self.retrieve_pdb_file ff g code obsolete pdir fs).retrieved,
      u = self.legacyUrl (pyLower code) obsolete := by
  unfold PDBList.retrieve_pdb_file PDBList.legacyFinalPath
  rw [if_neg (by simp [hlen])]
  dsimp only
  split <;> split
  · exact ⟨rfl, by simp⟩
  · split
    · exact ⟨rfl, by simp⟩
    · exact ⟨rfl, by simp⟩
  · exact ⟨rfl, by simp⟩
  · split
    · exact ⟨rfl, by simp⟩
    · exact ⟨rfl, by simp⟩

/-- C2: with no override directory, `retrieve_pdb_file` on a 4-character
identifier returns the legacy local path
`root ++ [lower(id)[1:3]] ++ [pdb{lower(id)}.ent]` under partitioned
layout and `root ++ [pdb{lower(id)}.ent]` under flat layout, where root
is the current tree iff `obsolete` is false; every URL it retrieves is
built from the lowercased identifier. -/
theorem claimC2_thm (self : PDBList) (ff : String → Option Content)
    (g : Content → Content) (id : String) (obsolete : Bool) (fs : FS)
    (hlen : id.length = 4) :
    (self.retrieve_pdb_file ff g id obsolete none fs).ret
      = .ok ((if obsolete then self.obsolete_pdb else self.local_pdb)
          ++ (if self.flat_tree then [] else [slice13 (pyLower id)])
          ++ ["pdb" ++ pyLower id ++ ".ent"]) ∧
    ∀ u ∈ (self.retrieve_pdb_file ff g id obsolete none fs).retrieved,
      u = self.pdb_server ++ "/pub/pdb/data/structures/"
          ++ (if obsolete then "obsolete" else "divided")
          ++ "/pdb/" ++ slice13 (pyLower id) ++ "/" ++ ("pdb" ++ pyLower id ++ ".ent.gz") := by
  obtain ⟨h1, h2⟩ := self.retrieve_ret ff g id obsolete none fs hlen
  constructor
  · rw [h1]
    congr 1
    unfold PDBList.legacyFinalPath PDBList.resolvePath legacyFinalName
    cases obsolete <;> cases hft : self.flat_tree <;> simp [hft, List.append_assoc]
  · intro u hu
    rw [h2 u hu]
    unfold PDBList.legacyUrl legacyArchiveFn
    cases obsolete <;> simp

/-- C2 witness: a mixed-case identifier is normalized to lowercase in
the partitioned legacy path. -/
theorem claimC2_witness :
    (PDBList.retrieve_pdb_file ⟨"S", ["p"], ["o"], false, false⟩ (fun _ => some "D")
        (fun c => c) "1AbC" false none FS.empty).ret
      = .ok ((if false then (["o"] : FsPath) else ["p"])
          ++ (if false then [] else [slice13 (pyLower "1AbC")])
          ++ ["pdb" ++ pyLower "1AbC" ++ ".ent"]) ∧
    ∀ u ∈ (PDBList.retrieve_pdb_file ⟨"S", ["p"], ["o"], false, false⟩ (fun _ => some "D")
        (fun c => c) "1AbC" false none FS.empty).retrieved,
      u = "S" ++ "/pub/pdb/data/structures/"
          ++ (if false then "obsolete" else "divided")
          ++ "/pdb/" ++ slice13 (pyLower "1AbC") ++ "/" ++ ("pdb" ++ pyLower "1AbC" ++ ".ent.gz") :=
  claimC2_thm ⟨"S", ["p"], ["o"], false, false⟩ (fun _ => some "D") (fun c => c)
    "1AbC" false FS.empty (by decide)

/-- C3: at the malformed identifier `"12345"` each single-entry fetch
rejects before any path or filesystem or network work (the filesystem is
untouched and nothing is retrieved) — but the call does not return
normally: control reaches `return final_file` with `final_file` unbound
and raises `UnboundLocalError`. -/
theorem claimC3_thm :
    ((PDBList.retrieve_pdb_file ⟨"S", ["p"], ["o"], false, false⟩ (fun _ => some "D")
        (fun c => c) "12345" false none FS.empty).ret = .nameError ∧
     (PDBList.retrieve_pdb_file ⟨"S", ["p"], ["o"], false, false⟩ (fun _ => some "D")
        (fun c => c) "12345" false none FS.empty).fs = FS.empty ∧
     (PDBList.retrieve_pdb_file ⟨"S", ["p"], ["o"], false, false⟩ (fun _ => some "D")
        (fun c => c) "12345" false none FS.empty).retrieved = []) ∧
    ((PDBList.download_mmcif_file ⟨"S", ["p"], ["o"], false, false⟩ (fun _ => some "D")
        (fun c => c) "12345" false none FS.empty).ret = .nameError ∧
     (PDBList.download_mmcif_file ⟨"S", ["p"], ["o"], false, false⟩ (fun _ => some "D")
        (fun c => c) "12345" false none FS.empty).fs = FS.empty ∧
     (PDBList.download_mmcif_file ⟨"S", ["p"], ["o"], false, false⟩ (fun _ => some "D")
        (fun c => c) "12345" false none FS.empty).retrieved = []) ∧
    ((PDBList.download_big_pdb_file ⟨"S", ["p"], ["o"], false, false⟩ (fun _ => some "D")
        (fun c => c) (fun _ => []) "12345" false none true FS.empty).ret = .nameError ∧
     (PDBList.download_big_pdb_file ⟨"S", ["p"], ["o"], false, false⟩ (fun _ => some "D")
        (fun c => c) (fun _ => []) "12345" false none true FS.empty).fs = FS.empty ∧
     (PDBList.download_big_pdb_file ⟨"S", ["p"], ["o"], false, false⟩ (fun _ => some "D")
        (fun c => c) (fun _ => []) "12345" false none true FS.empty).retrieved = []) :=
  ⟨⟨rfl, rfl, rfl⟩, ⟨rfl, rfl, rfl⟩, ⟨rfl, rfl, rfl⟩⟩

/-- C4 counterexample: a fetch whose network retrieval fails returns
exactly the same value as a fetch that succeeds — the computed
destination path — so the failure is not distinguishable from the
returned result. -/
theorem claimC4_counterexample :
    (PDBList.retrieve_pdb_file ⟨"S", ["p"], ["o"], false, false⟩ (fun _ => none)
        (fun c => c) "1abc" false none FS.empty).ret
      = (PDBList.retrieve_pdb_file ⟨"S", ["p"], ["o"], false, false⟩ (fun _ => some "D")
        (fun c => c) "1abc" false none FS.empty).ret := by decide

/-- C4 (amended): when every network retrieval fails, each single-entry
fetch catches the error, prints a generic message, and returns the
computed destination path — the very value a successful call returns —
carrying no identifier and no reason; the filesystem's files are left
unchanged (in particular no file appears at the returned path). -/
theorem claimC4_thm (self : PDBList) (ff : String → Option Content)
    (g : Content → Content) (untar : Content → List (String × Content))
    (code : String) (obsolete unzip : Bool) (pdir : Option FsPath) (fs : FS)
    (hlen : code.length = 4) (hfail : ∀ u, ff u = none) :
    ((self.retrieve_pdb_file ff g code obsolete pdir fs).ret
        = .ok (self.legacyFinalPath code obsolete pdir) ∧
     (self.retrieve_pdb_file ff g code obsolete pdir fs).fs.files = fs.files) ∧
    ((self.download_mmcif_file ff g code obsolete pdir fs).ret
        = .ok (self.mmcifFinalPath code obsolete pdir) ∧
     (self.download_mmcif_file ff g code obsolete pdir fs).fs.files = fs.files) ∧
    ((self.download_big_pdb_file ff g untar code obsolete pdir unzip fs).ret
        = .ok (self.bundleFinalPath code obsolete pdir) ∧
     (self.download_big_pdb_file ff g untar code obsolete pdir unzip fs).fs.files
        = fs.files) := by
  refine ⟨?_, ?_, ?_⟩
  · unfold PDBList.retrieve_pdb_file PDBList.legacyFinalPath
    rw [if_neg (by simp [hlen])]
    dsimp only
    split <;> split
    · exact ⟨rfl, rfl⟩
    · rw [hfail]; exact ⟨rfl, rfl⟩
    · exact ⟨rfl, rfl⟩
    · rw [hfail]; exact ⟨rfl, rfl⟩
  · unfold PDBList.download_mmcif_file PDBList.mmcifFinalPath
    rw [if_neg (by simp [hlen])]
    dsimp only
    split <;> split
    · exact ⟨rfl, rfl⟩
    · rw [hfail]; exact ⟨rfl, rfl⟩
    · exact ⟨rfl, rfl⟩
    · rw [hfail]; exact ⟨rfl, rfl⟩
  · unfold PDBList.download_big_pdb_file PDBList.bundleFinalPath
    rw [if_neg (by simp [hlen])]
    dsimp only
    split <;> split
    · exact ⟨rfl, rfl⟩
    · rw [hfail]; exact ⟨rfl, rfl⟩
    · exact ⟨rfl, rfl⟩
    · rw [hfail]; exact ⟨rfl, rfl⟩

/-- C4 witness: the amended behaviour at a concrete failing oracle. -/
theorem claimC4_witness :
    ((PDBList.retrieve_pdb_file ⟨"S", ["p"], ["o"], false, false⟩ (fun _ => none)
        (fun c => c) "1abc" false none FS.empty).ret
        = .ok (PDBList.legacyFinalPath ⟨"S", ["p"], ["o"], false, false⟩ "1abc" false none) ∧
     (PDBList.retrieve_pdb_file ⟨"S", ["p"], ["o"], false, false⟩ (fun _ => none)
        (fun c => c) "1abc" false none FS.empty).fs.files = FS.empty.files) ∧
    ((PDBList.download_mmcif_file ⟨"S", ["p"], ["o"], false, false⟩ (fun _ => none)
        (fun c => c) "1abc" false none FS.empty).ret
        = .ok (PDBList.mmcifFinalPath ⟨"S", ["p"], ["o"], false, false⟩ "1abc" false none) ∧
     (PDBList.download_mmcif_file ⟨"S", ["p"], ["o"], false, false⟩ (fun _ => none)
        (fun c => c) "1abc" false none FS.empty).fs.files = FS.empty.files) ∧
    ((PDBList.download_big_pdb_file ⟨"S", ["p"], ["o"], false, false⟩ (fun _ => none)
        (fun c => c) (fun _ => []) "1abc" false none false FS.empty).ret
        = .ok (PDBList.bundleFinalPath ⟨"S", ["p"], ["o"], false, false⟩ "1abc" false none) ∧
     (PDBList.download_big_pdb_file ⟨"S", ["p"], ["o"], false, false⟩ (fun _ => none)
        (fun c => c) (fun _ => []) "1abc" false none false FS.empty).fs.files
        = FS.empty.files) :=
  claimC4_thm ⟨"S", ["p"], ["o"], false, false⟩ (fun _ => none) (fun c => c)
    (fun _ => []) "1abc" false false none FS.empty (by decide) (fun _ => rfl)

/-- C5: on a listing in which the numerically largest weekly directory
name appears before a smaller one, `get_recent_changes`'s selection
(`recentDirName`) picks the *last* all-numeric entry in listing order —
`20031006` — although `20031013` is present and numerically larger, so it
does not select the largest numeric name. -/
theorem claimC5_thm :
    recentDirName ["drwx 2 sysadmin 20031013", "drwx 2 sysadmin 20031006",
        "-rw- 1 sysadmin README"] = some "20031006" ∧
    ("20031006" : String) ≠ "20031013" ∧
    ("20031006" : String).data < ("20031013" : String).data := by
  refine ⟨by decide, by decide, by decide⟩

theorem parseStatusList_abort {l : String} :
    ∀ {lines : List String}, l ∈ lines → (pyStrip l).length ≠ 4 →
      parseStatusList lines = none := by
  intro lines
  induction lines with
  | nil => intro h; cases h
  | cons a t ih =>
    intro hmem hlen
    rcases List.mem_cons.mp hmem with rfl | hmem'
    · unfold parseStatusList
      dsimp only
      rw [if_neg hlen]
    · unfold parseStatusList
      dsimp only
      split
      · rw [ih hmem' hlen]; rfl
      · rfl

theorem parseAllObsolete_abort {l t : String} :
    ∀ {lines : List String}, l ∈ lines → pyStartsWith l "OBSLTE " = true →
      (pySplit l).get? 2 = some t → t.length ≠ 4 →
      parseAllObsolete lines = none := by
  intro lines
  induction lines with
  | nil => intro h; cases h
  | cons a r ih =>
    intro hmem hstart hget hlen
    rcases List.mem_cons.mp hmem with rfl | hmem'
    · unfold parseAllObsolete
      rw [if_pos hstart, hget]
      dsimp only
      rw [if_neg hlen]
    · unfold parseAllObsolete
      split
      · split
        · rfl
        · split
          · rw [ih hmem' hstart hget hlen]; rfl
          · rfl
      · exact ih hmem' hstart hget hlen

/-- C7 counterexample: the all-entries index parse, given a record whose
token `12345` has length 5 and a record of length ≤ 4, silently
truncates the former to `1234` and drops the latter, returning a result
instead of aborting. -/
theorem claimC7_counterexample :
    parseAllEntries ["IDCODE, HEADER\n", "------- ------\n", "12345  OBSOLETE ENTRY\n",
      "1ab\n"] = ["1234"] := by decide

/-- C7 (amended): the weekly status-list parse and the all-obsolete parse
abort (assertion failure) whenever any of their identifier tokens has
length ≠ 4 — but the all-entries index parse performs no such validation:
it silently drops short lines and truncates each remaining line to its
first 4 characters (see the counterexample). -/
theorem claimC7_thm (lines1 lines2 : List String) (l1 l2 t : String)
    (h1 : l1 ∈ lines1) (h2 : (pyStrip l1).length ≠ 4)
    (h3 : l2 ∈ lines2) (h4 : pyStartsWith l2 "OBSLTE " = true)
    (h5 : (pySplit l2).get? 2 = some t) (h6 : t.length ≠ 4) :
    parseStatusList lines1 = none ∧ parseAllObsolete lines2 = none :=
  ⟨parseStatusList_abort h1 h2, parseAllObsolete_abort h3 h4 h5 h6⟩

/-- C7 witness: concrete malformed listings abort both validating parses. -/
theorem claimC7_witness :
    parseStatusList ["1abc\n", "12345\n"] = none ∧
    parseAllObsolete ["OBSLTE    31-JUL-94 116LX"] = none :=
  claimC7_thm ["1abc\n", "12345\n"] ["OBSLTE    31-JUL-94 116LX"]
    "12345\n" "OBSLTE    31-JUL-94 116LX" "116LX"
    (by decide) (by decide) (by decide) (by decide) (by decide) (by decide)

/-- C8 counterexample: a bundle fetch with extraction requested downloads
the archive and leaves the compressed `.tar.gz` in place beside the
extracted members — the intermediate compressed artifact is not deleted. -/
theorem claimC8_counterexample :
    (PDBList.download_big_pdb_file ⟨"S", ["p"], ["o"], false, false⟩ (fun _ => some "D")
        (fun c => c) (fun _ => [("1abc-pdb-bundle1.pdb", "M")]) "1abc" false none true
        FS.empty).retrieved
      = ["S/pub/pdb/compatible/pdb_bundle/ab/1abc/1abc-pdb-bundle.tar.gz"] ∧
    (PDBList.download_big_pdb_file ⟨"S", ["p"], ["o"], false, false⟩ (fun _ => some "D")
        (fun c => c) (fun _ => [("1abc-pdb-bundle1.pdb", "M")]) "1abc" false none true
        FS.empty).fs.isFile ["p", "ab", "1abc-pdb-bundle.tar.gz"] = true := by
  refine ⟨by decide, by decide⟩

/-- C8 (amended): after a successful fetch that reaches decompression,
`retrieve_pdb_file`, `download_mmcif_file` and `download_big_pdb_file`
without extraction delete the intermediate compressed archive; with
extraction requested, `download_big_pdb_file` retains the compressed
archive beside the extracted members (as its docstring states, it
"leaves extra tar archive for other purposes"). -/
theorem claimC8_thm (self : PDBList) (ff : String → Option Content)
    (g : Content → Content) (untar : Content → List (String × Content))
    (code : String) (obsolete : Bool) (pdir : Option FsPath) (fs : FS)
    (dataL dataM dataB : Content)
    (hlen : code.length = 4) (hov : self.overwrite = false)
    (hL : fs.pathExists (self.legacyFinalPath code obsolete pdir) = false)
    (hLf : ff (self.legacyUrl (pyLower code) obsolete) = some dataL)
    (hM : fs.pathExists (self.mmcifFinalPath code obsolete pdir) = false)
    (hMf : ff (self.mmcifUrl (pyLower code) obsolete) = some dataM)
    (hB : fs.pathExists (self.bundleFinalPath code obsolete pdir) = false)
    (hBf : ff (self.bundleUrl (pyLower code)) = some dataB) :
    (self.retrieve_pdb_file ff g code obsolete pdir fs).fs.files
        (self.resolvePath (pyLower code) obsolete pdir ++ [legacyArchiveFn (pyLower code)])
        = none ∧
    (self.download_mmcif_file ff g code obsolete pdir fs).fs.files
        (self.resolvePath (pyLower code) obsolete pdir ++ [mmcifArchiveFn (pyLower code)])
        = none ∧
    (self.download_big_pdb_file ff g untar code obsolete pdir false fs).fs.files
        (self.resolvePath (pyLower code) obsolete pdir ++ [bundleArchiveFn (pyLower code)])
        = none ∧
    (self.download_big_pdb_file ff g untar code obsolete pdir true fs).fs.isFile
        (self.resolvePath (pyLower code) obsolete pdir ++ [bundleArchiveFn (pyLower code)])
        = true := by
  obtain ⟨_, _, _, r4⟩ :=
    self.retrieve_download ff g code obsolete pdir fs dataL hlen hov hL hLf
  obtain ⟨_, _, _, m4⟩ :=
    self.mmcif_download ff g code obsolete pdir fs dataM hlen hov hM hMf
  obtain ⟨_, _, _, b4⟩ :=
    self.bundle_download_nounzip ff g untar code obsolete pdir fs dataB hlen hov hB hBf
  obtain ⟨_, _, u3⟩ :=
    self.bundle_unzip_download ff g untar code obsolete pdir fs dataB hlen hov hB hBf
  exact ⟨r4, m4, b4, u3⟩

/-- C8 witness: the amended deletion/retention behaviour at concrete
inputs. -/
theorem claimC8_witness :
    (PDBList.retrieve_pdb_file ⟨"S", ["p"], ["o"], false, false⟩ (fun _ => some "D")
        (fun c => c) "1abc" false none FS.empty).fs.files
        (PDBList.resolvePath ⟨"S", ["p"], ["o"], false, false⟩ (pyLower "1abc") false none
          ++ [legacyArchiveFn (pyLower "1abc")]) = none ∧
    (PDBList.download_mmcif_file ⟨"S", ["p"], ["o"], false, false⟩ (fun _ => some "D")
        (fun c => c) "1abc" false none FS.empty).fs.files
        (PDBList.resolvePath ⟨"S", ["p"], ["o"], false, false⟩ (pyLower "1abc") false none
          ++ [mmcifArchiveFn (pyLower "1abc")]) = none ∧
    (PDBList.download_big_pdb_file ⟨"S", ["p"], ["o"], false, false⟩ (fun _ => some "D")
        (fun c => c) (fun _ => [("1abc-pdb-bundle1.pdb", "M")]) "1abc" false none false
        FS.empty).fs.files
        (PDBList.resolvePath ⟨"S", ["p"], ["o"], false, false⟩ (pyLower "1abc") false none
          ++ [bundleArchiveFn (pyLower "1abc")]) = none ∧
    (PDBList.download_big_pdb_file ⟨"S", ["p"], ["o"], false, false⟩ (fun _ => some "D")
        (fun c => c) (fun _ => [("1abc-pdb-bundle1.pdb", "M")]) "1abc" false none true
        FS.empty).fs.isFile
        (PDBList.resolvePath ⟨"S", ["p"], ["o"], false, false⟩ (pyLower "1abc") false none
          ++ [bundleArchiveFn (pyLower "1abc")]) = true :=
  claimC8_thm ⟨"S", ["p"], ["o"], false, false⟩ (fun _ => some "D") (fun c => c)
    (fun _ => [("1abc-pdb-bundle1.pdb", "M")]) "1abc" false none FS.empty "D" "D" "D"
    (by decide) rfl (by decide) rfl (by decide) rfl (by decide) rfl

/-- C9: for `download_big_pdb_file` with `unzip` and a download actually
performed, the returned `.tar` container path is never created — members
are extracted directly into the destination directory — and since the
pre-download skip check tests that same never-created `.tar` path, a
repeated call with `overwrite` disabled performs the network retrieval
again instead of skipping. -/
theorem claimC9_thm (self : PDBList) (ff : String → Option Content)
    (g : Content → Content) (untar : Content → List (String × Content))
    (code : String) (obsolete : Bool) (pdir : Option FsPath) (fs : FS) (data : Content)
    (hlen : code.length = 4) (hov : self.overwrite = false)
    (habs : fs.pathExists (self.bundleFinalPath code obsolete pdir) = false)
    (hfetch : ff (self.bundleUrl (pyLower code)) = some data)
    (hmem : ∀ m ∈ untar data, m.1 ≠ bundleFinalName (pyLower code)) :
    (self.download_big_pdb_file ff g untar code obsolete pdir true fs).ret
        = .ok (self.bundleFinalPath code obsolete pdir) ∧
    (self.download_big_pdb_file ff g untar code obsolete pdir true fs).retrieved
        = [self.bundleUrl (pyLower code)] ∧
    (self.download_big_pdb_file ff g untar code obsolete pdir true fs).fs.pathExists
        (self.bundleFinalPath code obsolete pdir) = false ∧
    (self.download_big_pdb_file ff g untar code obsolete pdir true
        (self.download_big_pdb_file ff g untar code obsolete pdir true fs).fs).retrieved
        = [self.bundleUrl (pyLower code)] := by
  obtain ⟨r1, r2, _⟩ :=
    self.bundle_unzip_download ff g untar code obsolete pdir fs data hlen hov habs hfetch
  have hnf := self.bundle_unzip_no_final ff g untar code obsolete pdir fs data
    hlen hov habs hfetch hmem
  obtain ⟨_, r4, _⟩ := self.bundle_unzip_download ff g untar code obsolete pdir
    (self.download_big_pdb_file ff g untar code obsolete pdir true fs).fs data
    hlen hov hnf hfetch
  exact ⟨r1, r2, hnf, r4⟩

/-- C9 witness: the `.tar` path is absent after a concrete extraction
run and the second call retrieves again. -/
theorem claimC9_witness :
    (PDBList.download_big_pdb_file ⟨"S", ["p"], ["o"], false, false⟩ (fun _ => some "D")
        (fun c => c) (fun _ => [("1abc-pdb-bundle1.pdb", "M")]) "1abc" false none true
        FS.empty).ret
      = .ok (PDBList.bundleFinalPath ⟨"S", ["p"], ["o"], false, false⟩ "1abc" false none) ∧
    (PDBList.download_big_pdb_file ⟨"S", ["p"], ["o"], false, false⟩ (fun _ => some "D")
        (fun c => c) (fun _ => [("1abc-pdb-bundle1.pdb", "M")]) "1abc" false none true
        FS.empty).retrieved
      = [PDBList.bundleUrl ⟨"S", ["p"], ["o"], false, false⟩ (pyLower "1abc")] ∧
    (PDBList.download_big_pdb_file ⟨"S", ["p"], ["o"], false, false⟩ (fun _ => some "D")
        (fun c => c) (fun _ => [("1abc-pdb-bundle1.pdb", "M")]) "1abc" false none true
        FS.empty).fs.pathExists
        (PDBList.bundleFinalPath ⟨"S", ["p"], ["o"], false, false⟩ "1abc" false none) = false ∧
    (PDBList.download_big_pdb_file ⟨"S", ["p"], ["o"], false, false⟩ (fun _ => some "D")
        (fun c => c) (fun _ => [("1abc-pdb-bundle1.pdb", "M")]) "1abc" false none true
        (PDBList.download_big_pdb_file ⟨"S", ["p"], ["o"], false, false⟩ (fun _ => some "D")
          (fun c => c) (fun _ => [("1abc-pdb-bundle1.pdb", "M")]) "1abc" false none true
          FS.empty).fs).retrieved
      = [PDBList.bundleUrl ⟨"S", ["p"], ["o"], false, false⟩ (pyLower "1abc")] :=
  claimC9_thm ⟨"S", ["p"], ["o"], false, false⟩ (fun _ => some "D") (fun c => c)
    (fun _ => [("1abc-pdb-bundle1.pdb", "M")]) "1abc" false none FS.empty "D"
    (by decide) rfl (by decide) rfl (by decide)

/-- C10 counterexample: starting from an empty filesystem — the local
root does not exist — the constructor with the default obsolete root
succeeds and creates both the local root and the obsolete directory, so
the local root is not required to pre-exist. -/
theorem claimC10_counterexample :
    (PDBList.init "S" ["p"] none FS.empty).2.isDir ["p"] = true ∧
    (PDBList.init "S" ["p"] none FS.empty).2.isDir ["p", "obsolete"] = true ∧
    (PDBList.init "S" ["p"] none FS.empty).1.obsolete_pdb = ["p", "obsolete"] := by
  refine ⟨by decide, by decide, by decide⟩

/-- C10 (amended): with no custom obsolete root the constructor defaults
it to local root joined with `obsolete` and creates it — together with
any missing parents, including the local root — when absent, touching no
files; with a custom obsolete root it records the path and creates
nothing. -/
theorem claimC10_thm (server : String) (pdb : FsPath) (fs : FS) :
    ((PDBList.init server pdb none fs).1.obsolete_pdb = pdb ++ ["obsolete"] ∧
     (PDBList.init server pdb none fs).2.pathExists (pdb ++ ["obsolete"]) = true ∧
     (PDBList.init server pdb none fs).2.files = fs.files) ∧
    ∀ r : FsPath, (PDBList.init server pdb (some r) fs).1.obsolete_pdb = r ∧
      (PDBList.init server pdb (some r) fs).2 = fs := by
  refine ⟨⟨rfl, ?_, ?_⟩, fun r => ⟨rfl, rfl⟩⟩
  · unfold PDBList.init
    dsimp only
    split
    · simp only [FS.pathExists, FS.isFile, FS.isDir, FS.dirs_makedirs]
      have : pdb ++ ["obsolete"] ∈ pathParents (pdb ++ ["obsolete"]) :=
        self_mem_pathParents _ (by simp)
      simp [this]
    · rename_i hc
      simp only [Bool.not_eq_true', Bool.not_eq_false] at hc
      exact hc
  · unfold PDBList.init
    dsimp only
    split <;> rfl
